import Mathlib

/-!
Shallow embedding of `core/config/urls.py` (GroupBuy Bot core URL configuration).

The file defines one view function, `health_check`, and a module-level routing
table `urlpatterns` of eight `path(...)` entries.  Django dispatch scans the
list in order and selects the first entry whose pattern matches the request
path; an entry created with `include(...)` (or `admin.site.urls`) matches any
path having the pattern as a prefix, while an ordinary view entry matches only
the exact path.  Request paths are modelled with the leading slash stripped,
as Django does before matching against `urlpatterns`.
-/

namespace Urls

/-- A request, with the fields a Django view receives.  `health_check`
ignores everything but is given the full request, as in the source. -/
structure Request where
  method : String
  path : String
  headers : List (String × String)
  body : String

/-- An HTTP response: status code and a JSON object body modelled as a
list of key/value pairs. -/
structure Response where
  status : Nat
  body : List (String × String)
deriving DecidableEq, Repr

/-- `JsonResponse(obj)`: Django's JSON response with default status 200. -/
def JsonResponse (obj : List (String × String)) : Response :=
  { status := 200, body := obj }

/-- `def health_check(request): return JsonResponse({'status': 'healthy'})` -/
def health_check (_request : Request) : Response :=
  JsonResponse [("status", "healthy")]

/-- `health_check` in a state-and-exception embedding: the Python body
performs no state access and raises nothing, so it denotes the function that
returns the pure result and the state unchanged. -/
def health_check_eff {σ ε : Type} (request : Request) (s : σ) :
    Except ε (Response × σ) :=
  Except.ok (health_check request, s)

/-- The handler bound by a routing entry: the admin site, the local
`health_check` view, an `include('<module>')` of a domain router, or one of
the two drf-spectacular documentation views (the Swagger view carries its
configured `url_name`). -/
inductive Handler where
  | adminSite : Handler
  | healthCheck : Handler
  | includeRouter : String → Handler
  | spectacularAPIView : Handler
  | spectacularSwaggerView : String → Handler
deriving DecidableEq, Repr

/-- One `path(route, view, name=...)` entry.  `isInc` records whether the
entry delegates to a sub-URLconf (admin site or `include`), in which case the
route is matched as a path prefix; otherwise the route must match exactly. -/
structure Route where
  pattern : String
  isInc : Bool
  handler : Handler
  name : Option String
deriving DecidableEq, Repr

/-- Boolean string-prefix test, on the underlying character lists. -/
def strPrefix (a b : String) : Bool :=
  a.data.isPrefixOf b.data

/-- Whether a routing entry matches a request path: prefix match for
delegating entries, exact match for view entries. -/
def Route.matches (r : Route) (p : String) : Bool :=
  if r.isInc then strPrefix r.pattern p else p == r.pattern

/-- `path('admin/', admin.site.urls)` -/
def adminRoute : Route := ⟨"admin/", true, Handler.adminSite, none⟩

/-- `path('health/', health_check, name='health')` -/
def healthRoute : Route := ⟨"health/", false, Handler.healthCheck, some "health"⟩

/-- `path('api/users/', include('users.urls'))` -/
def usersRoute : Route := ⟨"api/users/", true, Handler.includeRouter "users.urls", none⟩

/-- `path('api/procurements/', include('procurements.urls'))` -/
def procurementsRoute : Route :=
  ⟨"api/procurements/", true, Handler.includeRouter "procurements.urls", none⟩

/-- `path('api/chat/', include('chat.urls'))` -/
def chatRoute : Route := ⟨"api/chat/", true, Handler.includeRouter "chat.urls", none⟩

/-- `path('api/payments/', include('payments.urls'))` -/
def paymentsRoute : Route :=
  ⟨"api/payments/", true, Handler.includeRouter "payments.urls", none⟩

/-- `path('api/schema/', SpectacularAPIView.as_view(), name='schema')` -/
def schemaRoute : Route :=
  ⟨"api/schema/", false, Handler.spectacularAPIView, some "schema"⟩

/-- `path('api/docs/', SpectacularSwaggerView.as_view(url_name='schema'), name='swagger-ui')` -/
def docsRoute : Route :=
  ⟨"api/docs/", false, Handler.spectacularSwaggerView "schema", some "swagger-ui"⟩

/-- The module-level `urlpatterns` list, in source order. -/
def urlpatterns : List Route :=
  [adminRoute, healthRoute, usersRoute, procurementsRoute, chatRoute,
   paymentsRoute, schemaRoute, docsRoute]

/-- First-match dispatch over an arbitrary routing table. -/
def dispatchList (l : List Route) (p : String) : Option Route :=
  l.find? (fun r => r.matches p)

/-- Dispatch of a request path over `urlpatterns`: the handler of the first
matching entry, or `none` (the framework's not-found response). -/
def dispatch (p : String) : Option Handler :=
  (dispatchList urlpatterns p).map (fun r => r.handler)

/-- Reverse lookup of a route by its registered logical name, as used by
`url_name='schema'` on the Swagger view. -/
def reverseByName (n : String) : Option Route :=
  urlpatterns.find? (fun r => r.name == some n)

/-- The logical names registered in the table. -/
def routeNames : List String :=
  urlpatterns.filterMap (fun r => r.name)

/-- A running server: the routing table built at startup plus the rest of
the application state, abstract here. -/
structure ServerState (σ : Type) where
  routes : List Route
  app : σ

/-- Server state at process startup. -/
def initServer {σ : Type} (a : σ) : ServerState σ :=
  { routes := urlpatterns, app := a }

/-- Handle one request: dispatch over the table and let the selected
handler (abstracted as `delegate`) act on the application state.  No handler
receives or produces a routing table. -/
def handleRequest {σ : Type} (delegate : Handler → Request → σ → σ)
    (req : Request) (s : ServerState σ) : ServerState σ :=
  match dispatchList s.routes req.path with
  | none => s
  | some r => { routes := s.routes, app := delegate r.handler req s.app }

/-- Handle a sequence of requests from a given server state. -/
def handleAll {σ : Type} (delegate : Handler → Request → σ → σ)
    (reqs : List Request) (s : ServerState σ) : ServerState σ :=
  reqs.foldl (fun s req => handleRequest delegate req s) s

end Urls

namespace Urls

/-- `strPrefix` agrees with the propositional prefix order on the
underlying character lists. -/
theorem strPrefix_iff {a b : String} : strPrefix a b = true ↔ a.data <+: b.data := by
  simp [strPrefix]

/-- Any matching entry has its pattern as a prefix of the request path:
directly for delegating entries, via equality for exact entries. -/
theorem matches_pattern_pre {r : Route} {p : String}
    (h : r.matches p = true) : r.pattern.data <+: p.data := by
  unfold Route.matches at h
  by_cases hi : r.isInc
  · rw [if_pos hi] at h
    exact strPrefix_iff.mp h
  · rw [if_neg hi] at h
    have hpe : p = r.pattern := eq_of_beq h
    rw [hpe]

/-- If `b` is a prefix of `p` and `a` is prefix-incomparable with `b`,
then `a` is not a prefix of `p`. -/
theorem isPrefixOf_false_of_incomparable {a b p : List Char} (hb : b <+: p)
    (hab : a.isPrefixOf b = false) (hba : b.isPrefixOf a = false) :
    a.isPrefixOf p = false := by
  by_contra hcon
  rw [Bool.not_eq_false] at hcon
  have ha : a <+: p := List.isPrefixOf_iff_prefix.mp hcon
  rcases List.prefix_or_prefix_of_prefix ha hb with h | h
  · rw [ List.isPrefixOf_iff_prefix.mpr h] at hab
    exact absurd hab (by simp)
  · rw [ List.isPrefixOf_iff_prefix.mpr h] at hba
    exact absurd hba (by simp)

/-- String version of `isPrefixOf_false_of_incomparable`. -/
theorem strPrefix_false_of_incomparable {a b p : String}
    (hb : strPrefix b p = true)
    (hab : a.data.isPrefixOf b.data = false)
    (hba : b.data.isPrefixOf a.data = false) : strPrefix a p = false :=
  isPrefixOf_false_of_incomparable (strPrefix_iff.mp hb) hab hba

/-- A path having `b` as a prefix cannot equal a string of which `b` is
not a prefix; rules out exact-match entries. -/
theorem beq_false_of_pre {b p e : String} (hb : strPrefix b p = true)
    (hbe : b.data.isPrefixOf e.data = false) : (p == e) = false := by
  rw [beq_eq_false_iff_ne]
  intro hpe
  subst hpe
  have ht : b.data.isPrefixOf p.data = true := by
    rw [ List.isPrefixOf_iff_prefix]
    exact strPrefix_iff.mp hb
  simp [hbe] at ht

/-- A path of which `e` is not a prefix cannot equal `e` itself. -/
theorem beq_false_of_not_self_pre {e p : String}
    (h : strPrefix e p = false) : (p == e) = false := by
  rw [beq_eq_false_iff_ne]
  intro hpe
  rw [hpe] at h
  have ht : strPrefix e e = true := strPrefix_iff.mpr (List.prefix_refl _)
  simp [h] at ht

/-- C1: every request to the health path gets HTTP 200 with body
`{"status": "healthy"}`, the same constant whatever the method, headers or
body of the request. -/
theorem health_check_constant_ok (req : Request) :
    (health_check req).status = 200 ∧
    (health_check req).body = [("status", "healthy")] ∧
    ∀ req₂ : Request, health_check req = health_check req₂ :=
  ⟨rfl, rfl, fun _ => rfl⟩

/-- C6: `health_check` has no side effects and no error conditions: in the
state-and-exception embedding it returns `ok` with the constant payload and
the application state unchanged, for every state type and every state. -/
theorem health_check_no_effects (σ ε : Type) (req : Request) (s : σ) :
    health_check_eff (σ := σ) (ε := ε) req s =
      Except.ok ({ status := 200, body := [("status", "healthy")] }, s) :=
  rfl

/-- C7: every request whose path begins with `admin/` is dispatched to the
admin site and to no other handler of the table. -/
theorem admin_prefix_dispatch (p : String) (h : strPrefix "admin/" p = true) :
    dispatch p = some Handler.adminSite := by
  have hm : Route.matches adminRoute p = true := h
  unfold dispatch dispatchList urlpatterns
  rw [List.find?_cons]
  simp only [hm]
  rfl

/-- Witness for C7 at the concrete path `admin/login/`. -/
theorem admin_prefix_dispatch_witness :
    strPrefix "admin/" "admin/login/" = true ∧
    dispatch "admin/login/" = some Handler.adminSite :=
  ⟨by decide, admin_prefix_dispatch "admin/login/" (by decide)⟩

/-- C2: every request whose path begins with `api/users/`,
`api/procurements/`, `api/chat/` or `api/payments/` is dispatched to the
include of the correspondingly named module and to no other handler. -/
theorem api_prefix_dispatch (p : String) :
    (strPrefix "api/users/" p = true →
      dispatch p = some (Handler.includeRouter "users.urls")) ∧
    (strPrefix "api/procurements/" p = true →
      dispatch p = some (Handler.includeRouter "procurements.urls")) ∧
    (strPrefix "api/chat/" p = true →
      dispatch p = some (Handler.includeRouter "chat.urls")) ∧
    (strPrefix "api/payments/" p = true →
      dispatch p = some (Handler.includeRouter "payments.urls")) := by
  refine ⟨fun h => ?_, fun h => ?_, fun h => ?_, fun h => ?_⟩
  · have m1 : Route.matches adminRoute p = false :=
      strPrefix_false_of_incomparable h (by decide) (by decide)
    have m2 : Route.matches healthRoute p = false := beq_false_of_pre h (by decide)
    have m3 : Route.matches usersRoute p = true := h
    unfold dispatch dispatchList urlpatterns
    rw [List.find?_cons_of_neg _ (by simp [m1]), List.find?_cons_of_neg _ (by simp [m2]),
      List.find?_cons]
    simp only [m3]
    rfl
  · have m1 : Route.matches adminRoute p = false :=
      strPrefix_false_of_incomparable h (by decide) (by decide)
    have m2 : Route.matches healthRoute p = false := beq_false_of_pre h (by decide)
    have m3 : Route.matches usersRoute p = false :=
      strPrefix_false_of_incomparable h (by decide) (by decide)
    have m4 : Route.matches procurementsRoute p = true := h
    unfold dispatch dispatchList urlpatterns
    rw [List.find?_cons_of_neg _ (by simp [m1]), List.find?_cons_of_neg _ (by simp [m2]),
      List.find?_cons_of_neg _ (by simp [m3]), List.find?_cons]
    simp only [m4]
    rfl
  · have m1 : Route.matches adminRoute p = false :=
      strPrefix_false_of_incomparable h (by decide) (by decide)
    have m2 : Route.matches healthRoute p = false := beq_false_of_pre h (by decide)
    have m3 : Route.matches usersRoute p = false :=
      strPrefix_false_of_incomparable h (by decide) (by decide)
    have m4 : Route.matches procurementsRoute p = false :=
      strPrefix_false_of_incomparable h (by decide) (by decide)
    have m5 : Route.matches chatRoute p = true := h
    unfold dispatch dispatchList urlpatterns
    rw [List.find?_cons_of_neg _ (by simp [m1]), List.find?_cons_of_neg _ (by simp [m2]),
      List.find?_cons_of_neg _ (by simp [m3]), List.find?_cons_of_neg _ (by simp [m4]),
      List.find?_cons]
    simp only [m5]
    rfl
  · have m1 : Route.matches adminRoute p = false :=
      strPrefix_false_of_incomparable h (by decide) (by decide)
    have m2 : Route.matches healthRoute p = false := beq_false_of_pre h (by decide)
    have m3 : Route.matches usersRoute p = false :=
      strPrefix_false_of_incomparable h (by decide) (by decide)
    have m4 : Route.matches procurementsRoute p = false :=
      strPrefix_false_of_incomparable h (by decide) (by decide)
    have m5 : Route.matches chatRoute p = false :=
      strPrefix_false_of_incomparable h (by decide) (by decide)
    have m6 : Route.matches paymentsRoute p = true := h
    unfold dispatch dispatchList urlpatterns
    rw [List.find?_cons_of_neg _ (by simp [m1]), List.find?_cons_of_neg _ (by simp [m2]),
      List.find?_cons_of_neg _ (by simp [m3]), List.find?_cons_of_neg _ (by simp [m4]),
      List.find?_cons_of_neg _ (by simp [m5]), List.find?_cons]
    simp only [m6]
    rfl

/-- Witness for C2 at one concrete path under each of the four prefixes. -/
theorem api_prefix_dispatch_witness :
    (strPrefix "api/users/" "api/users/me/" = true ∧
      dispatch "api/users/me/" = some (Handler.includeRouter "users.urls")) ∧
    (strPrefix "api/procurements/" "api/procurements/1/" = true ∧
      dispatch "api/procurements/1/" = some (Handler.includeRouter "procurements.urls")) ∧
    (strPrefix "api/chat/" "api/chat/room/" = true ∧
      dispatch "api/chat/room/" = some (Handler.includeRouter "chat.urls")) ∧
    (strPrefix "api/payments/" "api/payments/2/" = true ∧
      dispatch "api/payments/2/" = some (Handler.includeRouter "payments.urls")) :=
  ⟨⟨by decide, (api_prefix_dispatch "api/users/me/").1 (by decide)⟩,
   ⟨by decide, (api_prefix_dispatch "api/procurements/1/").2.1 (by decide)⟩,
   ⟨by decide, (api_prefix_dispatch "api/chat/room/").2.2.1 (by decide)⟩,
   ⟨by decide, (api_prefix_dispatch "api/payments/2/").2.2.2 (by decide)⟩⟩

/-- C3: a request path that matches none of the eight registered prefixes
selects no handler: dispatch yields `none`, the framework's not-found
fallthrough. -/
theorem unmatched_path_dispatch_none (p : String)
    (h1 : strPrefix "admin/" p = false)
    (h2 : strPrefix "health/" p = false)
    (h3 : strPrefix "api/users/" p = false)
    (h4 : strPrefix "api/procurements/" p = false)
    (h5 : strPrefix "api/chat/" p = false)
    (h6 : strPrefix "api/payments/" p = false)
    (h7 : strPrefix "api/schema/" p = false)
    (h8 : strPrefix "api/docs/" p = false) :
    dispatch p = none := by
  have m1 : Route.matches adminRoute p = false := h1
  have m2 : Route.matches healthRoute p = false := beq_false_of_not_self_pre h2
  have m3 : Route.matches usersRoute p = false := h3
  have m4 : Route.matches procurementsRoute p = false := h4
  have m5 : Route.matches chatRoute p = false := h5
  have m6 : Route.matches paymentsRoute p = false := h6
  have m7 : Route.matches schemaRoute p = false := beq_false_of_not_self_pre h7
  have m8 : Route.matches docsRoute p = false := beq_false_of_not_self_pre h8
  unfold dispatch dispatchList urlpatterns
  rw [List.find?_cons_of_neg _ (by simp [m1]), List.find?_cons_of_neg _ (by simp [m2]),
    List.find?_cons_of_neg _ (by simp [m3]), List.find?_cons_of_neg _ (by simp [m4]),
    List.find?_cons_of_neg _ (by simp [m5]), List.find?_cons_of_neg _ (by simp [m6]),
    List.find?_cons_of_neg _ (by simp [m7]), List.find?_cons_of_neg _ (by simp [m8])]
  rfl

/-- Witness for C3 at the concrete unregistered path `nope/`. -/
theorem unmatched_path_dispatch_none_witness :
    (strPrefix "admin/" "nope/" = false ∧ strPrefix "health/" "nope/" = false ∧
     strPrefix "api/users/" "nope/" = false ∧ strPrefix "api/procurements/" "nope/" = false ∧
     strPrefix "api/chat/" "nope/" = false ∧ strPrefix "api/payments/" "nope/" = false ∧
     strPrefix "api/schema/" "nope/" = false ∧ strPrefix "api/docs/" "nope/" = false) ∧
    dispatch "nope/" = none :=
  ⟨by decide,
   unmatched_path_dispatch_none "nope/" (by decide) (by decide) (by decide) (by decide)
     (by decide) (by decide) (by decide) (by decide)⟩

/-- C10: the registered logical route names are exactly `health`, `schema`,
`swagger-ui`, pairwise distinct, and each resolves by reverse lookup to
exactly one route of the table. -/
theorem route_names_distinct :
    routeNames = ["health", "schema", "swagger-ui"] ∧
    routeNames.Nodup ∧
    ∀ n ∈ routeNames,
      (urlpatterns.filter (fun r => r.name == some n)).length = 1 := by
  refine ⟨rfl, by decide, by decide⟩

/-- C4: `api/schema/` dispatches to the schema-generation view and
`api/docs/` to the Swagger viewer whose configured `url_name` is `schema`,
and reverse lookup of that name yields exactly the `api/schema/` route. -/
theorem schema_and_docs_routes :
    dispatch "api/schema/" = some Handler.spectacularAPIView ∧
    dispatch "api/docs/" = some (Handler.spectacularSwaggerView "schema") ∧
    reverseByName "schema" = some schemaRoute ∧
    schemaRoute.pattern = "api/schema/" ∧ schemaRoute.name = some "schema" := by
  refine ⟨by decide, by decide, by decide, rfl, rfl⟩

/-- C5: dispatch is first-match over the declared order: a handler is
selected exactly when it is the handler of some entry that matches the path
while every entry listed before it does not match. -/
theorem dispatch_first_match (p : String) (h : Handler) :
    dispatch p = some h ↔
      ∃ r l1 l2, urlpatterns = l1 ++ r :: l2 ∧ r.matches p = true ∧
        (∀ r' ∈ l1, r'.matches p = false) ∧ r.handler = h := by
  unfold dispatch dispatchList
  constructor
  · intro hd
    rcases Option.map_eq_some'.mp hd with ⟨r, hfind, hh⟩
    rcases List.find?_eq_some.mp hfind with ⟨hr, as, bs, heq, hall⟩
    exact ⟨r, as, bs, heq, hr, fun r' hm => by simpa using hall r' hm, hh⟩
  · rintro ⟨r, l1, l2, heq, hm, hall, hh⟩
    have hfind : urlpatterns.find? (fun r => r.matches p) = some r :=
      List.find?_eq_some.mpr ⟨hm, l1, l2, heq, fun a ha => by simp [hall a ha]⟩
    rw [hfind]
    simpa using hh

/-- Witness for C5: the split of `urlpatterns` around the health entry
yields the dispatch of `health/`. -/
theorem dispatch_first_match_witness :
    dispatch "health/" = some Handler.healthCheck :=
  (dispatch_first_match "health/" Handler.healthCheck).mpr
    ⟨healthRoute, [adminRoute],
     [usersRoute, procurementsRoute, chatRoute, paymentsRoute, schemaRoute, docsRoute],
     rfl, by decide, by decide, rfl⟩

/-- C8: the routing table is built once at startup and no sequence of
handled requests adds, removes or reorders its entries: after any request
sequence the table is still `urlpatterns`, whatever the handlers do to the
application state. -/
theorem urlpatterns_immutable (σ : Type) (delegate : Handler → Request → σ → σ)
    (reqs : List Request) (a : σ) :
    (handleAll delegate reqs (initServer a)).routes = urlpatterns := by
  suffices hgen : ∀ s : ServerState σ, (handleAll delegate reqs s).routes = s.routes by
    rw [hgen]
    rfl
  induction reqs with
  | nil => intro s; rfl
  | cons r rs ih =>
    intro s
    have hstep : (handleRequest delegate r s).routes = s.routes := by
      unfold handleRequest
      cases dispatchList s.routes r.path <;> rfl
    calc (handleAll delegate (r :: rs) s).routes
        = (handleAll delegate rs (handleRequest delegate r s)).routes := rfl
      _ = (handleRequest delegate r s).routes := ih _
      _ = s.routes := hstep

/-- At most one element of a list satisfies `f` up to equality: then
`find?` does not depend on the order of the list. -/
theorem find?_perm_unique {α : Type} (f : α → Bool) {l l' : List α}
    (hp : l.Perm l')
    (hu : ∀ a ∈ l, ∀ b ∈ l, f a = true → f b = true → a = b) :
    l.find? f = l'.find? f := by
  cases hfl : l.find? f with
  | none =>
    rw [List.find?_eq_none] at hfl
    exact (List.find?_eq_none.mpr (fun x hx => hfl x (hp.mem_iff.mpr hx))).symm
  | some x =>
    have hx : x ∈ l := List.mem_of_find?_eq_some hfl
    have hfx : f x = true := List.find?_some hfl
    have hsome : (l'.find? f).isSome :=
      List.find?_isSome.mpr ⟨x, hp.mem_iff.mp hx, hfx⟩
    rcases Option.isSome_iff_exists.mp hsome with ⟨y, hy⟩
    have hyl : y ∈ l := hp.mem_iff.mpr (List.mem_of_find?_eq_some hy)
    have hfy : f y = true := List.find?_some hy
    rw [hy, hu x hx y hyl hfx hfy]

/-- C9: no registered pattern is a prefix of another registered pattern, so
at most one entry of `urlpatterns` matches any request path, and first-match
dispatch gives the same result over any permutation of the table. -/
theorem urlpatterns_prefix_free_dispatch_perm_invariant :
    urlpatterns.Pairwise (fun a b =>
      a.pattern.data.isPrefixOf b.pattern.data = false ∧
      b.pattern.data.isPrefixOf a.pattern.data = false) ∧
    (∀ (p : String), ∀ r1 ∈ urlpatterns, ∀ r2 ∈ urlpatterns,
      r1.matches p = true → r2.matches p = true → r1 = r2) ∧
    (∀ l : List Route, urlpatterns.Perm l → ∀ p : String,
      dispatchList l p = dispatchList urlpatterns p) := by
  have key : ∀ a ∈ urlpatterns, ∀ b ∈ urlpatterns,
      a.pattern.data.isPrefixOf b.pattern.data = true → a = b := by decide
  have uniq : ∀ (p : String), ∀ r1 ∈ urlpatterns, ∀ r2 ∈ urlpatterns,
      r1.matches p = true → r2.matches p = true → r1 = r2 := by
    intro p r1 hr1 r2 hr2 hm1 hm2
    have q1 := matches_pattern_pre hm1
    have q2 := matches_pattern_pre hm2
    rcases List.prefix_or_prefix_of_prefix q1 q2 with hq | hq
    · exact key r1 hr1 r2 hr2 (List.isPrefixOf_iff_prefix.mpr hq)
    · exact (key r2 hr2 r1 hr1 (List.isPrefixOf_iff_prefix.mpr hq)).symm
  refine ⟨by decide, uniq, ?_⟩
  intro l hperm p
  exact (find?_perm_unique (fun r => r.matches p) hperm
    (fun a ha b hb => uniq p a ha b hb)).symm

/-- Witness for C9: dispatch of the reversed table agrees with dispatch of
the declared table at a concrete path. -/
theorem urlpatterns_prefix_free_dispatch_perm_invariant_witness :
    urlpatterns.Perm urlpatterns.reverse ∧
    dispatchList urlpatterns.reverse "health/" = dispatchList urlpatterns "health/" :=
  ⟨by decide,
   urlpatterns_prefix_free_dispatch_perm_invariant.2.2 urlpatterns.reverse
     (by decide) "health/"⟩

end Urls
